import Mathlib

/-!
Shallow embedding of the crosstalkio/rest helper layer
(`session.go`: server-side content negotiation; `client.go`: HTTP client
with pluggable auth and one-shot retry), together with theorems checking
the natural-language specification against it.

External collaborators (the Go standard library's JSON codec, the
protobuf codec, `net.ParseIP`, `net.SplitHostPort`, the HTTP transport)
are abstracted as oracle parameters; everything with decision logic in
the repository itself is translated directly.
-/

set_option linter.unusedVariables false

namespace Rest

/-- Model of Go strings.HasPrefix s t: t is a prefix of s.  Used by the
media-type matching in session.go. -/
def goStartsWith (s t : String) : Bool :=
  t.data.isPrefixOf s.data

/-- JSON media type constant (session.go / client.go). -/
def JsonContentType : String := "application/json"

/-- Recognized binary media types, in declaration order (session.go line 25). -/
def ProtobufContentTypes : List String :=
  ["application/protobuf", "application/x-protobuf"]

/-- isTypeOf (session.go lines 221-228): some recognized type of the list
is a prefix of mime. -/
def isTypeOf (mime : String) (types : List String) : Bool :=
  types.any (fun t => goStartsWith mime t)

/-- isProto (session.go lines 217-219). -/
def isProto (mime : String) : Bool :=
  isTypeOf mime ProtobufContentTypes

/-- accepts (session.go lines 230-239): the nested loop runs over the
recognized types in the outer loop and the accept header values in the
inner loop, and returns the first recognized type that is a prefix of
some accept value; empty string when none matches. -/
def accepts (types acceptVals : List String) : String :=
  match types.find? (fun t => acceptVals.any (fun a => goStartsWith a t)) with
  | some t => t
  | none => ""

/-- The guard selecting binary decoding in Session.Decode
(session.go lines 68-69): binary Content-Type, or non-positive
ContentLength together with a binary Accept header. -/
def decodeBinary (ctype acceptHdr : String) (contentLength : Int) : Bool :=
  isProto ctype || (decide (contentLength ≤ 0) && isProto acceptHdr)

/-- The two wire representations of the negotiator. -/
inductive Wire
  | binary
  | json
deriving DecidableEq

/-- Representation chosen by Session.Decode (session.go lines 65-93):
the binary branch is reachable only for a proto.Message destination and
only under the decodeBinary guard; every other case decodes JSON. -/
def decodeWire (isProtoMsg : Bool) (ctype acceptHdr : String) (clen : Int) : Wire :=
  if isProtoMsg && decodeBinary ctype acceptHdr clen then .binary else .json

/-- Results of the external codec and body-reading calls made by
Session.Decode, abstracted: reading the request body may fail, proto
unmarshal of the read bytes may fail, the streaming JSON decode may
fail, and the post-decode proto re-marshal (the required-field check)
may fail.  Errors are the message strings; none means success. -/
structure DecodeOracle where
  readBody : Except String (List Nat)
  protoUnmarshal : List Nat → Option String
  jsonDecode : Option String
  protoMarshal : Option String

/-- Session.Decode (session.go lines 65-93) with codec calls abstracted
by a DecodeOracle.  Returns the error Decode would return, none on
success. -/
def sessionDecode (isProtoMsg : Bool) (ctype acceptHdr : String) (clen : Int)
    (o : DecodeOracle) : Option String :=
  if isProtoMsg then
    if decodeBinary ctype acceptHdr clen then
      match o.readBody with
      | .error e => some e
      | .ok data => o.protoUnmarshal data
    else
      match o.jsonDecode with
      | some e => some e
      | none => o.protoMarshal
  else
    o.jsonDecode

/-- Outbound Content-Type chosen by Session.encode (session.go lines
95-107) for a binary-capable value, combining encodeProto (lines
165-169: empty accept match falls back to the first recognized type)
and encodeJSON (line 187: sets the JSON media type). -/
def encodeContentType (ctype : String) (acceptVals : List String) : String :=
  let a := accepts ProtobufContentTypes acceptVals
  if isProto ctype || !(a == "") then
    if a == "" then ProtobufContentTypes.getD 0 "" else a
  else
    JsonContentType

/-- Stated from the spec words of C3 only, for comparison with the code:
the first accept value in header order that has a recognized binary
media type as a prefix. -/
def firstAcceptInHeaderOrder (acceptVals : List String) : String :=
  match acceptVals.find? (fun a => isProto a) with
  | some a => a
  | none => ""

/-- Outcomes of the external calls made by one top-level Client.Request
(client.go lines 151-177): the low-level request may be issued at most
twice (first and retried outcome), Validate inspects the first
response, Invalidate may fail.  Round-trip outcomes are environment
data because the server may answer differently each time. -/
structure AuthEnv (R : Type) where
  req1 : Except String R
  validate : R → Except String Bool
  invalidate : Except String Unit
  req2 : Except String R

/-- Observable trace of one top-level Client.Request call: its result
and how many times the low-level request, Validate and Invalidate ran. -/
structure CallTrace (R : Type) where
  result : Except String R
  roundTrips : Nat
  validateCalls : Nat
  invalidateCalls : Nat

/-- Client.Request (client.go lines 151-177): issue the request; when an
Auth capability is configured, Validate the response; a false result
Invalidates and reissues the request once, returning the second outcome
with no further Validate, Invalidate or retry. -/
def clientRequest {R : Type} (hasAuth : Bool) (env : AuthEnv R) : CallTrace R :=
  match env.req1 with
  | .error e => ⟨.error e, 1, 0, 0⟩
  | .ok res =>
    if hasAuth then
      match env.validate res with
      | .error e => ⟨.error e, 1, 1, 0⟩
      | .ok true => ⟨.ok res, 1, 1, 0⟩
      | .ok false =>
        match env.invalidate with
        | .error e => ⟨.error e, 1, 1, 1⟩
        | .ok _ =>
          match env.req2 with
          | .error e => ⟨.error e, 2, 1, 1⟩
          | .ok res2 => ⟨.ok res2, 2, 1, 1⟩
    else ⟨.ok res, 1, 0, 0⟩

/-- Client.Get (client.go lines 135-137) delegates to Client.Request. -/
def clientGet {R : Type} (hasAuth : Bool) (env : AuthEnv R) : CallTrace R :=
  clientRequest hasAuth env

/-- Client.Post (client.go lines 139-141) delegates to Client.Request. -/
def clientPost {R : Type} (hasAuth : Bool) (env : AuthEnv R) : CallTrace R :=
  clientRequest hasAuth env

/-- Client.Put (client.go lines 143-145) delegates to Client.Request. -/
def clientPut {R : Type} (hasAuth : Bool) (env : AuthEnv R) : CallTrace R :=
  clientRequest hasAuth env

/-- Client.Delete (client.go lines 147-149) delegates to Client.Request. -/
def clientDelete {R : Type} (hasAuth : Bool) (env : AuthEnv R) : CallTrace R :=
  clientRequest hasAuth env

/-- Client-side Response (client.go lines 73-78): buffered body, the
Content-Type header of the HTTP response, and the protobuf flag. -/
structure MResponse where
  protobuf : Bool
  body : String
  ctypeHeader : String
deriving DecidableEq

/-- Construction of the Response value at the end of Client.request
(client.go lines 262-268): the protobuf flag is copied from the
client's configuration; the response headers play no part in it. -/
def mkResponse (cProtobuf : Bool) (body ctypeHeader : String) : MResponse :=
  { protobuf := cProtobuf, body := body, ctypeHeader := ctypeHeader }

/-- Response.Decode (client.go lines 80-98) with the two codec calls
abstracted (none means success, some e the decoder's error message).
Returns the pair of the local protobuf flag (did the binary path run)
and the error Decode returns: the decode error, replaced by the raw
body text when decoding failed on a non-binary path and the response's
Content-Type header is not the JSON media type. -/
def responseDecode (isProtoMsg : Bool) (r : MResponse)
    (protoUnmarshal jsonUnmarshal : Option String) : Bool × Option String :=
  let protobuf := isProtoMsg && r.protobuf
  let err := if protobuf then protoUnmarshal else jsonUnmarshal
  let errOut := match err with
    | none => none
    | some e =>
      if protobuf = false ∧ r.ctypeHeader ≠ JsonContentType then some r.body
      else some e
  (protobuf, errOut)

/-- The expected-status check of Client.request (client.go lines
258-261): a configured nonzero expected status that differs from the
received code fails the call with the HTTP status line and no Response;
otherwise the Response (here: code and body) is produced. -/
def checkStatus (cStatus resCode : Nat) (resStatusLine body : String) :
    Except String (Nat × String) :=
  if cStatus ≠ 0 ∧ cStatus ≠ resCode then .error resStatusLine
  else .ok (resCode, body)

/-- Client configuration relevant to NewClient (client.go lines
100-114).  The timeout of the underlying HTTP client is in
nanoseconds, Go's time.Duration unit. -/
structure MClient where
  timeoutNs : Nat
  url : String
  protobuf : Bool
  status : Nat
  hasAuth : Bool
deriving DecidableEq

/-- NewClient (client.go lines 109-114): the timeout argument is not
used; the HTTP client is always built with a 5 second timeout, and the
remaining fields take their zero values. -/
def NewClient (timeout : Nat) : MClient :=
  { timeoutNs := 5 * 1000000000, url := "", protobuf := false,
    status := 0, hasAuth := false }

/-- The kinds of body value passed to Client.request (client.go lines
183-215): Go nil (the isNil check, defined outside the provided
sources; modelled from the spec, which calls serialization skipped for
absent bodies), a raw byte slice, an io.Reader, a json.RawMessage, a
proto.Message, and any other value. -/
inductive ReqBody
  | nilBody
  | byteSlice (b : List Nat)
  | reader (b : List Nat)
  | rawJSON (b : List Nat)
  | protoMsg
  | other
deriving DecidableEq

/-- The content type chosen while serializing the body in
Client.request (client.go lines 183-215): none for nil bodies, byte
slices and readers; JSON for raw JSON and plain values; for a
proto.Message, protobuf in binary mode and JSON otherwise. -/
def serializeCtype (protobufMode : Bool) : ReqBody → Option String
  | .nilBody => none
  | .byteSlice _ => none
  | .reader _ => none
  | .rawJSON _ => some "application/json"
  | .protoMsg => some (if protobufMode then "application/protobuf" else "application/json")
  | .other => some "application/json"

/-- Header-map update, modelling http.Header assignment of one key. -/
def hset (h : String → Option String) (k v : String) : String → Option String :=
  fun k2 => if k2 = k then some v else h k2

/-- Header assembly of Client.request (client.go lines 216-244): start
from the empty header map of a fresh request, set Content-Type when
serialization chose one, copy the caller's headers key by key, let a
configured Auth capability mutate the map (abstracted as authEff), and
finally, when no content type was chosen, set Accept to the client's
configured preference. -/
def requestHeaders (protobufMode hasAuth : Bool) (b : ReqBody)
    (caller : String → Option String)
    (authEff : (String → Option String) → (String → Option String)) :
    String → Option String :=
  let ct := serializeCtype protobufMode b
  let h0 : String → Option String := fun _ => none
  let h1 := match ct with
            | some c => hset h0 "Content-Type" c
            | none => h0
  let h2 := fun k => match caller k with
                     | some v => some v
                     | none => h1 k
  let h3 := if hasAuth then authEff h2 else h2
  match ct with
  | none => hset h3 "Accept"
      (if protobufMode then "application/protobuf" else "application/json")
  | some _ => h3

/-- The values Session.Status dispatches on (session.go lines 109-135):
nil-like values, strings, errors (carrying their message), and any
other value, which is handed to the structured encoder. -/
inductive StatusVal
  | nilVal
  | strVal (s : String)
  | errVal (s : String)
  | otherVal
deriving DecidableEq

/-- Modelled from the spec: isNil (defined in a repository file not
under the provided sources) recognizes exactly the nil-like values. -/
def isNil : StatusVal → Bool
  | .nilVal => true
  | _ => false

/-- State of the http.ResponseWriter as observed by Session.Status:
headers written, status line written (none before WriteHeader), and
the body text accumulated so far. -/
structure RespState where
  headers : String → Option String
  status : Option Nat
  body : String

/-- The fresh response-writer state of a request. -/
def emptyResp : RespState :=
  { headers := fun _ => none, status := none, body := "" }

/-- The shared text tail of Session.Status (session.go lines 127-134):
set Content-Type and X-Content-Type-Options, write the status line,
then Fprintln the message, which appends exactly one newline. -/
def statusText (status : Nat) (msg : String) (st : RespState) : RespState :=
  { headers := hset (hset st.headers "Content-Type" "text/plain; charset=utf-8")
      "X-Content-Type-Options" "nosniff",
    status := some status,
    body := st.body ++ msg ++ "\n" }

/-- Session.Status (session.go lines 109-135): nil-like values write
only the status line; strings and errors take the plain-text tail; any
other value is delegated to the structured encoder, abstracted here as
encodeEff. -/
def sessionStatus (encodeEff : Nat → RespState → RespState)
    (status : Nat) (v : StatusVal) (st : RespState) : RespState :=
  if isNil v then { st with status := some status }
  else
    match v with
    | .nilVal => { st with status := some status }
    | .strVal s => statusText status s st
    | .errVal e => statusText status e st
    | .otherVal => encodeEff status st

/-- First comma-separated entry of a string, modelling Go
strings.Split(fwd, ",")[0] as used by RemoteHost. -/
def takeUntilComma : List Char → List Char
  | [] => []
  | c :: cs => if c = ',' then [] else c :: takeUntilComma cs

/-- The first comma-separated entry of the X-Forwarded-For value. -/
def firstForwarded (fwd : String) : String :=
  String.mk (takeUntilComma fwd.data)

/-- The candidate host string RemoteHost parses (session.go lines
37-49): the first X-Forwarded-For entry when the header is non-empty,
otherwise the host half of the peer address when it splits as
host:port, otherwise the whole raw peer address.  net.SplitHostPort is
an external collaborator, abstracted as a parameter. -/
def remoteHostCandidate (splitHostPort : String → Option (String × String))
    (fwd remoteAddr : String) : String :=
  if fwd ≠ "" then firstForwarded fwd
  else
    match splitHostPort remoteAddr with
    | some (h, _) => h
    | none => remoteAddr

/-- Session.RemoteHost (session.go lines 36-55): parse the candidate
host with net.ParseIP (abstracted as a parameter); a failed parse
returns the error built from the candidate, never a panic. -/
def remoteHost {IP : Type} (splitHostPort : String → Option (String × String))
    (parseIP : String → Option IP) (fwd remoteAddr : String) : Except String IP :=
  let host := remoteHostCandidate splitHostPort fwd remoteAddr
  match parseIP host with
  | some ip => .ok ip
  | none => .error ("Invalid IP address: " ++ host)

/-- C1: a top-level Client.Request with an Auth capability performs at
most two round trips and at most one Validate; Get, Post, Put and
Delete delegate to Request; when the first Validate returns false,
Invalidate runs exactly once, and when it succeeds the request is
reissued exactly once and its outcome returned with no further
Validate, Invalidate or retry, for every environment of outcomes. -/
theorem client_request_retry {R : Type} (hasAuth : Bool) (env : AuthEnv R) :
    (clientRequest hasAuth env).roundTrips ≤ 2 ∧
    (clientRequest hasAuth env).validateCalls ≤ 1 ∧
    (clientGet hasAuth env = clientRequest hasAuth env ∧
      clientPost hasAuth env = clientRequest hasAuth env ∧
      clientPut hasAuth env = clientRequest hasAuth env ∧
      clientDelete hasAuth env = clientRequest hasAuth env) ∧
    (∀ r, env.req1 = .ok r → env.validate r = .ok false →
       (clientRequest true env).invalidateCalls = 1 ∧
       (env.invalidate = .ok () →
          (clientRequest true env).roundTrips = 2 ∧
          (clientRequest true env).validateCalls = 1 ∧
          (clientRequest true env).result = env.req2)) := by
  have key : ∀ (ha : Bool),
      (clientRequest ha env).roundTrips ≤ 2 ∧ (clientRequest ha env).validateCalls ≤ 1 := by
    intro ha
    cases h1 : env.req1 with
    | error e => simp [clientRequest, h1]
    | ok res =>
      cases ha with
      | false => simp [clientRequest, h1]
      | true =>
        cases h2 : env.validate res with
        | error e => simp [clientRequest, h1, h2]
        | ok b =>
          cases b with
          | true => simp [clientRequest, h1, h2]
          | false =>
            cases h3 : env.invalidate with
            | error e => simp [clientRequest, h1, h2, h3]
            | ok u =>
              cases h4 : env.req2 <;> simp [clientRequest, h1, h2, h3, h4]
  refine ⟨(key hasAuth).1, (key hasAuth).2, ⟨rfl, rfl, rfl, rfl⟩, ?_⟩
  intro r hr hv
  constructor
  · cases h3 : env.invalidate with
    | error e => simp [clientRequest, hr, hv, h3]
    | ok u => cases h4 : env.req2 <;> simp [clientRequest, hr, hv, h3, h4]
  · intro hinv
    cases h4 : env.req2 <;> simp [clientRequest, hr, hv, hinv, h4]

/-- C1 witness: with a first response validated false, a successful
Invalidate and a successful second request, the call makes two round
trips, one Invalidate, and returns the second response. -/
theorem client_request_retry_witness :
    (clientRequest true (⟨Except.ok 0, fun _ => Except.ok false,
        Except.ok (), Except.ok 1⟩ : AuthEnv Nat)).roundTrips = 2 ∧
    (clientRequest true (⟨Except.ok 0, fun _ => Except.ok false,
        Except.ok (), Except.ok 1⟩ : AuthEnv Nat)).invalidateCalls = 1 ∧
    (clientRequest true (⟨Except.ok 0, fun _ => Except.ok false,
        Except.ok (), Except.ok 1⟩ : AuthEnv Nat)).result = Except.ok 1 := by
  have h := client_request_retry true
    (⟨Except.ok 0, fun _ => Except.ok false, Except.ok (), Except.ok 1⟩ : AuthEnv Nat)
  rcases h with ⟨-, -, -, h4⟩
  rcases h4 0 rfl rfl with ⟨hi, h5⟩
  rcases h5 rfl with ⟨ht, hv, hr⟩
  exact ⟨ht, hi, hr⟩

/-- C2 counterexample: a bodiless request (ContentLength 0) whose
Content-Type is a binary media type and whose Accept header matches no
binary media type is decoded binary, while the claim's final sentence
predicts JSON for every bodiless request without a binary Accept. -/
theorem decode_bodiless_binary_ctype_cex :
    decodeWire true "application/protobuf" "application/json" 0 = Wire.binary ∧
    isProto "application/json" = false ∧
    Wire.binary ≠ Wire.json := by decide

/-- C2 (amended): for a binary-capable destination, binary decoding is
chosen exactly when Content-Type matches a binary media type, or the
content length is not positive and Accept matches one; non-capable
destinations always decode JSON; and a bodiless request decodes JSON
unless Accept or Content-Type matches a binary media type. -/
theorem decode_wire_selection (isProtoMsg : Bool) (ctype acc : String) (clen : Int) :
    (decodeWire isProtoMsg ctype acc clen = Wire.binary ↔
      isProtoMsg = true ∧ (isProto ctype = true ∨ (clen ≤ 0 ∧ isProto acc = true))) ∧
    (isProtoMsg = false → decodeWire isProtoMsg ctype acc clen = Wire.json) ∧
    (clen ≤ 0 → isProto acc = false → isProto ctype = false →
      decodeWire isProtoMsg ctype acc clen = Wire.json) := by
  cases hpm : isProtoMsg <;> cases hc : isProto ctype <;> cases ha : isProto acc <;>
    by_cases hl : clen ≤ 0 <;>
      simp [decodeWire, decodeBinary, hc, ha, hl]

/-- C2 witness: a binary Content-Type with a body selects binary. -/
theorem decode_wire_selection_witness :
    decodeWire true "application/protobuf" "" 5 = Wire.binary :=
  ((decode_wire_selection true "application/protobuf" "" 5).1).mpr
    ⟨rfl, Or.inl (by decide)⟩

/-- C3 counterexample: with Accept values application/x-protobuf then
application/protobuf, the code chooses application/protobuf (the first
recognized type in constant order), while the claim's header-order rule
picks application/x-protobuf. -/
theorem encode_ctype_header_order_cex :
    encodeContentType "" ["application/x-protobuf", "application/protobuf"] =
      "application/protobuf" ∧
    firstAcceptInHeaderOrder ["application/x-protobuf", "application/protobuf"] =
      "application/x-protobuf" ∧
    ("application/protobuf" : String) ≠ "application/x-protobuf" := by decide

/-- C3 (amended): when some Accept value has a recognized binary media
type as a prefix, the chosen outbound Content-Type is the first
recognized type in the fixed constant order (application/protobuf
before application/x-protobuf) that prefix-matches some Accept value —
the recognized type itself, not the raw Accept value; the spec's
example still yields application/x-protobuf; with no Accept match the
choice is application/protobuf under a binary request Content-Type and
the JSON media type otherwise. -/
theorem encode_ctype_choice (ctype : String) (acceptVals : List String) :
    (∀ t, ProtobufContentTypes.find?
        (fun u => acceptVals.any (fun a => goStartsWith a u)) = some t →
      encodeContentType ctype acceptVals = t) ∧
    (accepts ProtobufContentTypes acceptVals = "" → isProto ctype = true →
      encodeContentType ctype acceptVals = "application/protobuf") ∧
    (accepts ProtobufContentTypes acceptVals = "" → isProto ctype = false →
      encodeContentType ctype acceptVals = JsonContentType) ∧
    encodeContentType "" ["application/x-protobuf", "application/json"] =
      "application/x-protobuf" := by
  refine ⟨?_, ?_, ?_, by decide⟩
  · intro t ht
    have hmem := List.mem_of_find?_eq_some ht
    have hne : (t == "") = false := by
      simp only [ProtobufContentTypes, List.mem_cons, List.mem_singleton,
        List.not_mem_nil, or_false] at hmem
      rcases hmem with h | h <;> simp [h]
    simp [encodeContentType, accepts, ht, hne]
  · intro ha hc
    simp [encodeContentType, ha, hc]
    rfl
  · intro ha hc
    simp [encodeContentType, ha, hc]

/-- C3 witness: the spec's own example, proved through the amended
theorem's first-match characterization. -/
theorem encode_ctype_choice_witness :
    encodeContentType "" ["application/x-protobuf", "application/json"] =
      "application/x-protobuf" :=
  (encode_ctype_choice "" ["application/x-protobuf", "application/json"]).1
    "application/x-protobuf" (by decide)

/-- C4: the Response's protobuf flag is the client's configured mode,
independent of any response header; client Decode of a binary-capable
value takes the binary path iff the flag is set; and a failed JSON
decode attempt under a non-JSON response Content-Type reports the raw
body text, while a JSON Content-Type keeps the decoder's error. -/
theorem response_decode_static_flag (cProtobuf isProtoMsg : Bool)
    (body ctypeHeader : String) (r : MResponse) (pe je : Option String) :
    (mkResponse cProtobuf body ctypeHeader).protobuf = cProtobuf ∧
    (responseDecode isProtoMsg r pe je).1 = (isProtoMsg && r.protobuf) ∧
    (∀ e, (isProtoMsg && r.protobuf) = false → je = some e →
       r.ctypeHeader ≠ JsonContentType →
       (responseDecode isProtoMsg r pe je).2 = some r.body) ∧
    (∀ e, (isProtoMsg && r.protobuf) = false → je = some e →
       r.ctypeHeader = JsonContentType →
       (responseDecode isProtoMsg r pe je).2 = some e) := by
  refine ⟨rfl, rfl, ?_, ?_⟩
  · intro e hflag hje hct
    simp [responseDecode, hflag, hje, hct]
  · intro e hflag hje hct
    simp [responseDecode, hflag, hje, hct]

/-- C4 witness: a JSON-mode client decoding a proto-capable value from
a failing body under Content-Type text/html reports the raw body. -/
theorem response_decode_static_flag_witness :
    (responseDecode true (mkResponse false "raw page" "text/html") none
      (some "json syntax error")).2 = some "raw page" :=
  (response_decode_static_flag false true "raw page" "text/html"
      (mkResponse false "raw page" "text/html") none (some "json syntax error")).2.2.1
    "json syntax error" rfl rfl (by decide)

/-- C5: on the JSON path for a binary-capable destination a successful
JSON decode is followed by the proto re-marshal validity pass, whose
error (e.g. a missing required field) becomes Decode's result, while a
failing JSON decode returns its own error; on the binary path the
result is exactly the read-and-unmarshal outcome, with no extra pass. -/
theorem session_decode_required_field_pass (ctype acc : String) (clen : Int)
    (o : DecodeOracle) :
    (decodeBinary ctype acc clen = false → o.jsonDecode = none →
      sessionDecode true ctype acc clen o = o.protoMarshal) ∧
    (∀ e, decodeBinary ctype acc clen = false → o.jsonDecode = some e →
      sessionDecode true ctype acc clen o = some e) ∧
    (decodeBinary ctype acc clen = true →
      sessionDecode true ctype acc clen o =
        (match o.readBody with
         | .error e => some e
         | .ok data => o.protoUnmarshal data)) := by
  refine ⟨?_, ?_, ?_⟩
  · intro hb hj
    simp [sessionDecode, hb, hj]
  · intro e hb hj
    simp [sessionDecode, hb, hj]
  · intro hb
    simp [sessionDecode, hb]

/-- C5 witness: with a non-binary request, a JSON decode that succeeds
and a re-marshal that reports a missing required field, Decode fails
with that error. -/
theorem session_decode_required_field_pass_witness :
    sessionDecode true "" "" 1
      ⟨Except.ok [], fun _ => none, none, some "required field missing"⟩ =
      some "required field missing" :=
  (session_decode_required_field_pass "" "" 1
      ⟨Except.ok [], fun _ => none, none, some "required field missing"⟩).1
    (by decide) rfl

/-- C6: writing a string or error through Session.Status sets
Content-Type to text/plain with charset, sets X-Content-Type-Options to
nosniff, writes the status line, and writes the text plus exactly one
newline; errors behave as their message string; a nil-like value writes
only the status line, leaving headers and body untouched. -/
theorem session_status_text_and_nil (encodeEff : Nat → RespState → RespState)
    (status : Nat) (s : String) (st : RespState) :
    (sessionStatus encodeEff status (.strVal s) emptyResp).headers "Content-Type" =
      some "text/plain; charset=utf-8" ∧
    (sessionStatus encodeEff status (.strVal s) emptyResp).headers "X-Content-Type-Options" =
      some "nosniff" ∧
    (sessionStatus encodeEff status (.strVal s) emptyResp).status = some status ∧
    (sessionStatus encodeEff status (.strVal s) emptyResp).body = s ++ "\n" ∧
    sessionStatus encodeEff status (.errVal s) emptyResp =
      sessionStatus encodeEff status (.strVal s) emptyResp ∧
    (sessionStatus encodeEff status .nilVal st).status = some status ∧
    (sessionStatus encodeEff status .nilVal st).headers = st.headers ∧
    (sessionStatus encodeEff status .nilVal st).body = st.body := by
  refine ⟨rfl, rfl, rfl, by simp [sessionStatus, isNil, statusText, emptyResp], rfl, rfl, rfl, rfl⟩

/-- C7: a configured nonzero expected status differing from the
received code fails the call with the HTTP status line and no
Response, whatever the body; a matching or unconfigured expectation
produces the Response. -/
theorem check_status_mismatch (cStatus resCode : Nat) (line body : String) :
    (cStatus ≠ 0 → cStatus ≠ resCode →
      checkStatus cStatus resCode line body = .error line) ∧
    (cStatus = 0 ∨ cStatus = resCode →
      checkStatus cStatus resCode line body = .ok (resCode, body)) := by
  constructor
  · intro h1 h2
    simp [checkStatus, h1, h2]
  · intro h
    rcases h with h | h <;> simp [checkStatus, h]

/-- C7 witness: expecting 200 and receiving 404 fails with the status
line regardless of the body. -/
theorem check_status_mismatch_witness :
    checkStatus 200 404 "404 Not Found" "some body" = Except.error "404 Not Found" :=
  (check_status_mismatch 200 404 "404 Not Found" "some body").1 (by decide) (by decide)

/-- C8: with a non-empty X-Forwarded-For the parsed candidate is its
first comma-separated entry and the peer address is ignored entirely;
otherwise the candidate is the host half of the peer address, or the
whole raw address when it does not split; the call returns the parsed
IP exactly when the candidate parses, and an error otherwise. -/
theorem remote_host_selection {I : Type} (shp : String → Option (String × String))
    (pip : String → Option I) (fwd addr : String) :
    (fwd ≠ "" → remoteHostCandidate shp fwd addr = firstForwarded fwd) ∧
    (fwd ≠ "" → ∀ addr2, remoteHost shp pip fwd addr = remoteHost shp pip fwd addr2) ∧
    (fwd = "" → ∀ a b, shp addr = some (a, b) → remoteHostCandidate shp fwd addr = a) ∧
    (fwd = "" → shp addr = none → remoteHostCandidate shp fwd addr = addr) ∧
    (∀ ip, pip (remoteHostCandidate shp fwd addr) = some ip →
      remoteHost shp pip fwd addr = .ok ip) ∧
    (pip (remoteHostCandidate shp fwd addr) = none →
      remoteHost shp pip fwd addr =
        .error ("Invalid IP address: " ++ remoteHostCandidate shp fwd addr)) := by
  refine ⟨?_, ?_, ?_, ?_, ?_, ?_⟩
  · intro h
    simp [remoteHostCandidate, h]
  · intro h addr2
    simp [remoteHost, remoteHostCandidate, h]
  · intro h a b hs
    simp [remoteHostCandidate, h, hs]
  · intro h hs
    simp [remoteHostCandidate, h, hs]
  · intro ip hp
    simp [remoteHost, hp]
  · intro hp
    simp [remoteHost, hp]

/-- C8 witness: a forwarded header with two entries parses its first
entry, ignoring the transport peer address. -/
theorem remote_host_selection_witness :
    remoteHost (fun _ => none) (fun s => if s = "10.0.0.1" then some s else none)
      "10.0.0.1,10.0.0.2" "192.168.0.1:8080" = Except.ok "10.0.0.1" :=
  (remote_host_selection (fun _ => none)
      (fun s => if s = "10.0.0.1" then some s else none)
      "10.0.0.1,10.0.0.2" "192.168.0.1:8080").2.2.2.2.1 "10.0.0.1" (by decide)

/-- C9: NewClient ignores its timeout argument: any two timeouts yield
identical clients, and the underlying HTTP client timeout is always
five seconds (in nanoseconds). -/
theorem new_client_ignores_timeout (t1 t2 : Nat) :
    NewClient t1 = NewClient t2 ∧ (NewClient t1).timeoutNs = 5 * 1000000000 :=
  ⟨rfl, rfl⟩

/-- C10: nil bodies, byte slices and readers choose no content type
from serialization, and for them the Accept header is unconditionally
overwritten with the client's configured preference, whatever the
caller or the Auth capability set; when serialization chose a content
type, the caller's headers, Accept included, are copied through
unchanged. -/
theorem request_headers_accept_override (pb hasAuth : Bool) (b : ReqBody)
    (caller : String → Option String)
    (authEff : (String → Option String) → (String → Option String)) :
    (serializeCtype pb ReqBody.nilBody = none ∧
      (∀ bs, serializeCtype pb (ReqBody.byteSlice bs) = none) ∧
      (∀ bs, serializeCtype pb (ReqBody.reader bs) = none)) ∧
    (serializeCtype pb b = none →
      requestHeaders pb hasAuth b caller authEff "Accept" =
        some (if pb then "application/protobuf" else "application/json")) ∧
    (∀ c, serializeCtype pb b = some c → ∀ k v, caller k = some v →
      requestHeaders pb false b caller authEff k = some v) := by
  refine ⟨⟨rfl, fun bs => rfl, fun bs => rfl⟩, ?_, ?_⟩
  · intro h
    simp [requestHeaders, h, hset]
  · intro c h k v hk
    simp [requestHeaders, h, hk]

/-- C10 witness: a nil body under a protobuf-mode client with an Auth
capability yields Accept application/protobuf. -/
theorem request_headers_accept_override_witness :
    requestHeaders true true ReqBody.nilBody (fun _ => none) id "Accept" =
      some "application/protobuf" :=
  (request_headers_accept_override true true ReqBody.nilBody (fun _ => none) id).2.1 rfl

end Rest
